import Mathlib

/-!
Verification development for the doodie_duty supervision core.

The definitions below are a shallow embedding of the Python source:
`src/supervisor.py` (supervision state machine, event history, observer
dispatch), `src/detector.py` (the count-based unsupervised predicate) and
`src/actions.py` (the action/cooldown coordinator).  Time is modelled as a
natural number of seconds passed explicitly into each call; exceptions are
modelled with `Except`; the outcome of an external action execution is an
input to the model.
-/

namespace DoodieDuty

/-- Embedding of `SupervisionState` from `src/supervisor.py`. -/
inductive SupervisionState where
  | idle
  | supervised
  | unsupervised
  | alert
  deriving DecidableEq

/-- Embedding of `SupervisionEvent` from `src/supervisor.py`.  The frame
snapshot and detection list are irrelevant to the claims and omitted;
timestamps and durations are naturals (seconds). -/
structure SupervisionEvent where
  state : SupervisionState
  timestamp : Nat
  dogs_detected : Nat
  humans_detected : Nat
  duration_unsupervised : Option Nat
  deriving DecidableEq

/-- The mutable state of `DogSupervisor` relevant to the state machine:
configuration, current state, the unsupervised timer and the bounded event
history (`src/supervisor.py`, `__init__`). -/
structure DogSupervisor where
  alert_delay_seconds : Nat
  current_state : SupervisionState
  unsupervised_start_time : Option Nat
  event_history : List SupervisionEvent
  max_history_size : Nat
  deriving DecidableEq

/-- Initial supervisor state as built by `DogSupervisor.__init__`:
state `IDLE`, timer `None`, empty history, `max_history_size = 1000`. -/
def DogSupervisor.init (alert_delay_seconds : Nat) : DogSupervisor :=
  { alert_delay_seconds := alert_delay_seconds
    current_state := SupervisionState.idle
    unsupervised_start_time := none
    event_history := []
    max_history_size := 1000 }

/-- Embedding of `DogHumanDetector.is_dog_unsupervised` (`src/detector.py`,
line 84): `len(dogs) > 0 and len(humans) == 0`, phrased on the counts. -/
def is_dog_unsupervised (dogs humans : Nat) : Bool :=
  decide (0 < dogs) && decide (humans = 0)

/-- Embedding of `DogSupervisor._determine_state` (`src/supervisor.py`,
lines 118-124). -/
def determine_state (is_unsup : Bool) (dog_count human_count : Nat) :
    SupervisionState :=
  if dog_count = 0 then SupervisionState.idle
  else if is_unsup then SupervisionState.unsupervised
  else SupervisionState.supervised

/-- The history mutation performed by `DogSupervisor._trigger_event`
(`src/supervisor.py`, lines 211-213): append, then `pop(0)` when the
length exceeds `max_history_size`. -/
def appendEvent (max_history_size : Nat) (history : List SupervisionEvent)
    (e : SupervisionEvent) : List SupervisionEvent :=
  let h := history ++ [e]
  if max_history_size < h.length then h.drop 1 else h

/-- State-level effect of `DogSupervisor._trigger_event` on the supervisor
record (the handler loop is modelled separately by
`trigger_event_handlers`). -/
def trigger_event (s : DogSupervisor) (e : SupervisionEvent) : DogSupervisor :=
  { s with event_history := appendEvent s.max_history_size s.event_history e }

/-- Embedding of `DogSupervisor._handle_state_change` (`src/supervisor.py`,
lines 126-179): set the timer when entering `UNSUPERVISED`, clear it
otherwise, record the state-change event, then update the current state. -/
def handle_state_change (s : DogSupervisor) (now : Nat)
    (new_state : SupervisionState) (dogs humans : Nat) : DogSupervisor :=
  let s1 :=
    if new_state = SupervisionState.unsupervised then
      { s with unsupervised_start_time := some now }
    else
      { s with unsupervised_start_time := none }
  let e : SupervisionEvent :=
    { state := new_state
      timestamp := now
      dogs_detected := dogs
      humans_detected := humans
      duration_unsupervised := none }
  let s2 := trigger_event s1 e
  { s2 with current_state := new_state }

/-- Embedding of `DogSupervisor._check_alert_condition` (`src/supervisor.py`,
lines 181-208): with the timer set, once the elapsed duration reaches
`alert_delay_seconds` and the state is not already `ALERT`, record an alert
event (carrying the elapsed duration) and move to `ALERT` without touching
the timer. -/
def check_alert_condition (s : DogSupervisor) (now : Nat) (dogs humans : Nat) :
    DogSupervisor :=
  match s.unsupervised_start_time with
  | none => s
  | some start =>
    let duration := now - start
    if s.alert_delay_seconds ≤ duration ∧
        s.current_state ≠ SupervisionState.alert then
      let e : SupervisionEvent :=
        { state := SupervisionState.alert
          timestamp := now
          dogs_detected := dogs
          humans_detected := humans
          duration_unsupervised := some duration }
      let s1 := trigger_event s e
      { s1 with current_state := SupervisionState.alert }
    else s

/-- One detection cycle's input: the current time and, when a frame was
available, the detection counts `(dogs, humans)` obtained from it. -/
structure CycleInput where
  now : Nat
  frame : Option (Nat × Nat)
  deriving DecidableEq

/-- Embedding of `DogSupervisor._check_supervision` (`src/supervisor.py`,
lines 97-116): a missing frame is a no-op; otherwise compute the target
state from the counts, handle a state change when it differs from the
current state, and otherwise check the alert condition when the state is
`UNSUPERVISED`. -/
def check_supervision (s : DogSupervisor) (inp : CycleInput) : DogSupervisor :=
  match inp.frame with
  | none => s
  | some (dogs, humans) =>
    let is_unsup := is_dog_unsupervised dogs humans
    let new_state := determine_state is_unsup dogs humans
    if new_state ≠ s.current_state then
      handle_state_change s inp.now new_state dogs humans
    else if new_state = SupervisionState.unsupervised then
      check_alert_condition s inp.now dogs humans
    else s

/-- Run a sequence of detection cycles from the initial supervisor state. -/
def run (alert_delay : Nat) (inputs : List CycleInput) : DogSupervisor :=
  inputs.foldl check_supervision (DogSupervisor.init alert_delay)

/-- Supervisor states reachable from the initial state by detection
cycles. -/
inductive Reachable (alert_delay : Nat) : DogSupervisor → Prop where
  | init : Reachable alert_delay (DogSupervisor.init alert_delay)
  | step (s : DogSupervisor) (inp : CycleInput) :
      Reachable alert_delay s → Reachable alert_delay (check_supervision s inp)

/-- The events recorded by a single call to `_check_supervision`, read off
the same branch structure as `check_supervision`: the state-change event
built in `_handle_state_change` or the alert event built in
`_check_alert_condition`. -/
def cycle_events (s : DogSupervisor) (inp : CycleInput) :
    List SupervisionEvent :=
  match inp.frame with
  | none => []
  | some (dogs, humans) =>
    let new_state := determine_state (is_dog_unsupervised dogs humans)
      dogs humans
    if new_state ≠ s.current_state then
      [{ state := new_state
         timestamp := inp.now
         dogs_detected := dogs
         humans_detected := humans
         duration_unsupervised := none }]
    else if new_state = SupervisionState.unsupervised then
      match s.unsupervised_start_time with
      | none => []
      | some start =>
        if s.alert_delay_seconds ≤ inp.now - start ∧
            s.current_state ≠ SupervisionState.alert then
          [{ state := SupervisionState.alert
             timestamp := inp.now
             dogs_detected := dogs
             humans_detected := humans
             duration_unsupervised := some (inp.now - start) }]
        else []
    else []


/-- Whether `_check_alert_condition` fires on state `s` at time `now`:
the timer is set, the elapsed duration reached `alert_delay_seconds`, and
the state is not already Alert. -/
def alert_fires (s : DogSupervisor) (now : Nat) : Bool :=
  match s.unsupervised_start_time with
  | none => false
  | some start =>
      decide (s.alert_delay_seconds ≤ now - start) &&
      decide (s.current_state ≠ SupervisionState.alert)

/-- Outcome of one handler invocation in the loop of
`DogSupervisor._trigger_event` (`src/supervisor.py`, lines 218-223): a
handler that raises is caught (`true` means it returned normally). -/
def run_handler (handler : SupervisionEvent → Except String Unit)
    (e : SupervisionEvent) : Bool :=
  match handler e with
  | Except.ok _ => true
  | Except.error _ => false

/-- The handler loop of `DogSupervisor._trigger_event`: every registered
handler is invoked with the event, in registration order, each inside its
own try/except; the list of per-handler outcomes is returned. -/
def trigger_event_handlers
    (handlers : List (SupervisionEvent → Except String Unit))
    (e : SupervisionEvent) : List Bool :=
  handlers.foldl (fun acc handler => acc ++ [run_handler handler e]) []

/-- Result of one external action execution, an input to the model:
`ActionTrigger._execute` returns `True`, returns `False`, or raises. -/
inductive ActionResult where
  | success
  | failure
  | raised
  deriving DecidableEq

/-- Embedding of `ActionTrigger` (`src/actions.py`, lines 12-16): name,
enabled flag, and the object's own `last_triggered` timestamp. -/
structure ActionTrigger where
  name : String
  enabled : Bool
  last_triggered : Option Nat
  deriving DecidableEq

/-- Embedding of `ActionManager` (`src/actions.py`, lines 235-239): the
registered actions in insertion order (the Python `dict` preserves it),
the shared cooldown, and the per-name `last_trigger_time` map, modelled as
an association list. -/
structure ActionManager where
  actions : List ActionTrigger
  cooldown_seconds : Nat
  last_trigger_time : List (String × Nat)
  deriving DecidableEq

/-- Lookup in the `last_trigger_time` map (`name in self.last_trigger_time`
followed by indexing). -/
def lookupTime (name : String) : List (String × Nat) → Option Nat
  | [] => none
  | (k, v) :: rest => if k = name then some v else lookupTime name rest

/-- Update of the `last_trigger_time` map
(`self.last_trigger_time[name] = current_time`). -/
def setTime (name : String) (t : Nat) :
    List (String × Nat) → List (String × Nat)
  | [] => [(name, t)]
  | (k, v) :: rest =>
      if k = name then (k, t) :: rest else (k, v) :: setTime name t rest

/-- The cooldown test of `ActionManager.trigger_actions` (`src/actions.py`,
lines 271-275): skip when the name has a recorded trigger time and
`now - last < cooldown`. -/
def on_cooldown (cooldown now : Nat) (ltt : List (String × Nat))
    (name : String) : Bool :=
  match lookupTime name ltt with
  | none => false
  | some t => decide (now - t < cooldown)

/-- Accumulator threaded through the `trigger_actions` loop: the processed
actions (with their `last_triggered` fields updated), the evolving
`last_trigger_time` map, the names whose `action.trigger` was invoked, and
`triggered_count`. -/
structure TriggerState where
  actions : List ActionTrigger
  last_trigger_time : List (String × Nat)
  attempted : List String
  triggered_count : Nat
  deriving DecidableEq

/-- The attempt branch of the `trigger_actions` loop body (`src/actions.py`,
lines 277-287) together with `ActionTrigger.trigger` (lines 18-25): the
action's own `last_triggered` is set to `now` before execution, so it is
updated on every attempt; the manager's `last_trigger_time[name]` and
`triggered_count` are updated only when execution returns `True`; a raise
is caught and processing continues. -/
def attempt_action (now : Nat) (results : String → ActionResult)
    (st : TriggerState) (a : ActionTrigger) : TriggerState :=
  let a2 := { a with last_triggered := some now }
  match results a.name with
  | ActionResult.success =>
    { actions := st.actions ++ [a2]
      last_trigger_time := setTime a.name now st.last_trigger_time
      attempted := st.attempted ++ [a.name]
      triggered_count := st.triggered_count + 1 }
  | ActionResult.failure =>
    { st with actions := st.actions ++ [a2]
              attempted := st.attempted ++ [a.name] }
  | ActionResult.raised =>
    { st with actions := st.actions ++ [a2]
              attempted := st.attempted ++ [a.name] }

/-- One iteration of the `trigger_actions` loop (`src/actions.py`, lines
266-287): skip a disabled action, skip an action on cooldown, otherwise
attempt it. -/
def process_action (cooldown now : Nat) (results : String → ActionResult)
    (st : TriggerState) (a : ActionTrigger) : TriggerState :=
  if a.enabled = false then { st with actions := st.actions ++ [a] }
  else if on_cooldown cooldown now st.last_trigger_time a.name then
    { st with actions := st.actions ++ [a] }
  else attempt_action now results st a

/-- Embedding of `ActionManager.trigger_actions` (`src/actions.py`, lines
256-290): fold the loop body over the registered actions. -/
def trigger_actions (m : ActionManager) (now : Nat)
    (results : String → ActionResult) : TriggerState :=
  m.actions.foldl (process_action m.cooldown_seconds now results)
    { actions := []
      last_trigger_time := m.last_trigger_time
      attempted := []
      triggered_count := 0 }

/-- Embedding of `ActionManager.get_status` (`src/actions.py`, lines
292-302): per action, its enabled flag and its own `last_triggered`
timestamp. -/
def get_status (actions : List ActionTrigger) :
    List (String × Bool × Option Nat) :=
  actions.map (fun a => (a.name, a.enabled, a.last_triggered))

/-! ## Lemmas and claim theorems -/

lemma determine_state_ne_alert (b : Bool) (d h : Nat) :
    determine_state b d h ≠ SupervisionState.alert := by
  unfold determine_state
  split_ifs <;> simp

lemma check_supervision_some (s : DogSupervisor) (now d h : Nat) :
    check_supervision s ⟨now, some (d, h)⟩
      = (if determine_state (is_dog_unsupervised d h) d h ≠ s.current_state then
          handle_state_change s now
            (determine_state (is_dog_unsupervised d h) d h) d h
        else if determine_state (is_dog_unsupervised d h) d h
            = SupervisionState.unsupervised then
          check_alert_condition s now d h
        else s) := rfl

lemma handle_state_change_current_state (s : DogSupervisor) (now : Nat)
    (t : SupervisionState) (d h : Nat) :
    (handle_state_change s now t d h).current_state = t := rfl

lemma handle_state_change_timer (s : DogSupervisor) (now : Nat)
    (t : SupervisionState) (d h : Nat) :
    (handle_state_change s now t d h).unsupervised_start_time
      = (if t = SupervisionState.unsupervised then some now else none) := by
  simp only [handle_state_change, trigger_event]
  split_ifs <;> rfl

lemma check_supervision_history (s : DogSupervisor) (inp : CycleInput) :
    (check_supervision s inp).event_history
      = (cycle_events s inp).foldl (appendEvent s.max_history_size)
          s.event_history := by
  rcases inp with ⟨now, frame⟩
  cases frame with
  | none => rfl
  | some p =>
    rcases p with ⟨d, h⟩
    simp only [check_supervision, cycle_events]
    split_ifs with h1 h2
    · simp only [handle_state_change, trigger_event, List.foldl]
      split_ifs <;> rfl
    · simp only [check_alert_condition]
      cases hst : s.unsupervised_start_time with
      | none => simp
      | some start =>
        simp only
        split_ifs with h3
        · simp [trigger_event]
        · simp
    · rfl

lemma check_alert_condition_cases (s : DogSupervisor) (now d h : Nat) :
    (∃ start, s.unsupervised_start_time = some start
      ∧ s.alert_delay_seconds ≤ now - start
      ∧ s.current_state ≠ SupervisionState.alert
      ∧ check_alert_condition s now d h
          = { trigger_event s
                { state := SupervisionState.alert
                  timestamp := now
                  dogs_detected := d
                  humans_detected := h
                  duration_unsupervised := some (now - start) } with
              current_state := SupervisionState.alert })
    ∨ check_alert_condition s now d h = s := by
  unfold check_alert_condition
  cases hst : s.unsupervised_start_time with
  | none => right; rfl
  | some start =>
    simp only
    split_ifs with hc
    · left
      exact ⟨start, rfl, hc.1, hc.2, rfl⟩
    · right; rfl

lemma check_alert_condition_current (s : DogSupervisor) (now d h : Nat) :
    (check_alert_condition s now d h).current_state
      = (if alert_fires s now then SupervisionState.alert
         else s.current_state) := by
  unfold check_alert_condition alert_fires
  cases hst : s.unsupervised_start_time with
  | none => simp
  | some start =>
    simp only
    split_ifs with h1 h2 <;> simp_all

lemma check_alert_condition_timer (s : DogSupervisor) (now d h : Nat) :
    (check_alert_condition s now d h).unsupervised_start_time
      = s.unsupervised_start_time := by
  unfold check_alert_condition
  cases hst : s.unsupervised_start_time with
  | none => exact hst
  | some start =>
    simp only
    split_ifs with h1
    · simp [trigger_event, hst]
    · exact hst

/-- C2: each cycle computes the target state by the transition rule
(supervisee 0 gives Idle; supervisee > 0 and supervisor 0 gives
Unsupervised; both positive gives Supervised); when the target differs
from the current state the post-cycle state equals the target; and the
post-cycle state and timer do not depend on the event history. -/
theorem evaluate_matches_transition_rule (s : DogSupervisor) (now d h : Nat) :
    (determine_state (is_dog_unsupervised d h) d h
      = (if d = 0 then SupervisionState.idle
         else if h = 0 then SupervisionState.unsupervised
         else SupervisionState.supervised))
    ∧ (determine_state (is_dog_unsupervised d h) d h ≠ s.current_state →
        (check_supervision s ⟨now, some (d, h)⟩).current_state
          = determine_state (is_dog_unsupervised d h) d h)
    ∧ ∀ hist2 : List SupervisionEvent,
        (check_supervision { s with event_history := hist2 }
            ⟨now, some (d, h)⟩).current_state
          = (check_supervision s ⟨now, some (d, h)⟩).current_state
        ∧ (check_supervision { s with event_history := hist2 }
            ⟨now, some (d, h)⟩).unsupervised_start_time
          = (check_supervision s ⟨now, some (d, h)⟩).unsupervised_start_time := by
  refine ⟨?_, ?_, ?_⟩
  · simp only [determine_state, is_dog_unsupervised]
    split_ifs <;> simp_all
  · intro hne
    rw [check_supervision_some, if_pos hne, handle_state_change_current_state]
  · intro hist2
    rw [check_supervision_some, check_supervision_some]
    split_ifs with h1 h2
    · constructor
      · rw [handle_state_change_current_state, handle_state_change_current_state]
      · rw [handle_state_change_timer, handle_state_change_timer]
    · constructor
      · rw [check_alert_condition_current, check_alert_condition_current]
        rfl
      · rw [check_alert_condition_timer, check_alert_condition_timer]
    · exact ⟨rfl, rfl⟩

/-- C2 witness: at the initial state with counts (1, 0) the target state
Unsupervised differs from Idle and becomes the post-cycle state. -/
theorem evaluate_matches_transition_rule_witness :
    (check_supervision (DogSupervisor.init 5) ⟨0, some (1, 0)⟩).current_state
      = determine_state (is_dog_unsupervised 1 0) 1 0 :=
  (evaluate_matches_transition_rule (DogSupervisor.init 5) 0 1 0).2.1
    (by decide)

/-- C8: a cycle with no frame available changes nothing: the whole
supervisor state, and in particular the current state, the unsupervised
timer and the event history, are unchanged. -/
theorem no_frame_cycle_is_noop (s : DogSupervisor) (now : Nat) :
    check_supervision s ⟨now, none⟩ = s
    ∧ (check_supervision s ⟨now, none⟩).current_state = s.current_state
    ∧ (check_supervision s ⟨now, none⟩).unsupervised_start_time
      = s.unsupervised_start_time
    ∧ (check_supervision s ⟨now, none⟩).event_history = s.event_history :=
  ⟨rfl, rfl, rfl, rfl⟩

/-- C9: Scenario A.  From the initial Idle state, counts
(0,0), (1,0), (1,0), (1,0) at times 0, 1, 2, 3 with alert delay 2 produce
states Idle, Unsupervised, Unsupervised, Alert, and the history holds
exactly two events: one state-change event to Unsupervised at time 1 and
one Alert event at time 3 carrying unsupervised duration 2. -/
theorem scenario_a :
    (List.scanl check_supervision (DogSupervisor.init 2)
        [⟨0, some (0, 0)⟩, ⟨1, some (1, 0)⟩, ⟨2, some (1, 0)⟩,
         ⟨3, some (1, 0)⟩]).map DogSupervisor.current_state
      = [SupervisionState.idle, SupervisionState.idle,
         SupervisionState.unsupervised, SupervisionState.unsupervised,
         SupervisionState.alert]
    ∧ (run 2
        [⟨0, some (0, 0)⟩, ⟨1, some (1, 0)⟩, ⟨2, some (1, 0)⟩,
         ⟨3, some (1, 0)⟩]).event_history
      = [⟨SupervisionState.unsupervised, 1, 1, 0, none⟩,
         ⟨SupervisionState.alert, 3, 1, 0, some 2⟩] := by
  decide

/-- C1 counterexample: four cycles whose frames all carry counts (1, 0)
(one continuous unsupervised span: supervisee count stays positive and
supervisor count stays 0 throughout), at times 0, 2, 3, 5 with alert
delay 2, leave two Alert events in the history, refuting at most one
Alert per continuous unsupervised span. -/
theorem alert_refires_within_one_unsupervised_span :
    ([⟨0, some (1, 0)⟩, ⟨2, some (1, 0)⟩, ⟨3, some (1, 0)⟩,
       ⟨5, some (1, 0)⟩] : List CycleInput).map CycleInput.frame
      = [some (1, 0), some (1, 0), some (1, 0), some (1, 0)]
    ∧ ((run 2
        [⟨0, some (1, 0)⟩, ⟨2, some (1, 0)⟩, ⟨3, some (1, 0)⟩,
         ⟨5, some (1, 0)⟩]).event_history.countP
        (fun e => decide (e.state = SupervisionState.alert))) = 2 := by
  decide

/-- C1 amended: an Alert event is recorded by a cycle only when the
current state is Unsupervised (never while already in Alert), the
recording cycle moves the state to Alert and preserves the timer, and the
recorded events of a cycle are exactly what the cycle appends to the
history; hence at most one Alert fires per timer epoch, and none fires
again before a state-change cycle (which, in this code, restarts the
timer) begins a new epoch. -/
theorem alert_fires_at_most_once_per_timer_epoch (s : DogSupervisor)
    (inp : CycleInput) :
    (check_supervision s inp).event_history
      = (cycle_events s inp).foldl (appendEvent s.max_history_size)
          s.event_history
    ∧ (s.current_state = SupervisionState.alert →
        ∀ e ∈ cycle_events s inp, e.state ≠ SupervisionState.alert)
    ∧ (∀ e ∈ cycle_events s inp, e.state = SupervisionState.alert →
        s.current_state = SupervisionState.unsupervised
        ∧ (check_supervision s inp).current_state = SupervisionState.alert
        ∧ (check_supervision s inp).unsupervised_start_time
          = s.unsupervised_start_time) := by
  refine ⟨check_supervision_history s inp, ?_, ?_⟩
  · rintro hcur e he
    rcases inp with ⟨now, frame⟩
    cases frame with
    | none => simp [cycle_events] at he
    | some p =>
      rcases p with ⟨d, h⟩
      simp only [cycle_events] at he
      split_ifs at he with h1 h2
      · simp only [List.mem_singleton] at he
        subst he
        exact determine_state_ne_alert (is_dog_unsupervised d h) d h
      · exact absurd ((not_not.mp h1).trans hcur)
          (determine_state_ne_alert (is_dog_unsupervised d h) d h)
      · simp at he
  · rintro e he hal
    rcases inp with ⟨now, frame⟩
    cases frame with
    | none => simp [cycle_events] at he
    | some p =>
      rcases p with ⟨d, h⟩
      simp only [cycle_events] at he
      split_ifs at he with h1 h2
      · simp only [List.mem_singleton] at he
        subst he
        exact absurd hal
          (determine_state_ne_alert (is_dog_unsupervised d h) d h)
      · rcases hst : s.unsupervised_start_time with _ | start
        · rw [hst] at he; simp at he
        · rw [hst] at he
          simp only at he
          split_ifs at he with h3
          · have hcur : s.current_state = SupervisionState.unsupervised :=
              (not_not.mp h1) ▸ h2
            refine ⟨hcur, ?_, ?_⟩
            · rw [check_supervision_some, if_neg h1, if_pos h2,
                check_alert_condition_current]
              have hf : alert_fires s now = true := by
                unfold alert_fires
                rw [hst]
                simp [h3.1, h3.2]
              rw [if_pos hf]
            · rw [check_supervision_some, if_neg h1, if_pos h2,
                check_alert_condition_timer]
              exact hst
          · simp at he
      · simp at he

/-- C1 amended witness: from a concrete Unsupervised state with the timer
at 0, the cycle at time 2 with counts (1, 0) records an Alert event, the
prior state is Unsupervised, the state moves to Alert and the timer is
preserved. -/
theorem alert_fires_at_most_once_per_timer_epoch_witness :
    ({ alert_delay_seconds := 2
       current_state := SupervisionState.unsupervised
       unsupervised_start_time := some 0
       event_history := []
       max_history_size := 1000 } : DogSupervisor).current_state
        = SupervisionState.unsupervised
    ∧ (check_supervision
        { alert_delay_seconds := 2
          current_state := SupervisionState.unsupervised
          unsupervised_start_time := some 0
          event_history := []
          max_history_size := 1000 } ⟨2, some (1, 0)⟩).current_state
        = SupervisionState.alert
    ∧ (check_supervision
        { alert_delay_seconds := 2
          current_state := SupervisionState.unsupervised
          unsupervised_start_time := some 0
          event_history := []
          max_history_size := 1000 } ⟨2, some (1, 0)⟩).unsupervised_start_time
        = some 0 :=
  (alert_fires_at_most_once_per_timer_epoch
    { alert_delay_seconds := 2
      current_state := SupervisionState.unsupervised
      unsupervised_start_time := some 0
      event_history := []
      max_history_size := 1000 } ⟨2, some (1, 0)⟩).2.2
    ⟨SupervisionState.alert, 2, 1, 0, some 2⟩ (by decide) (by decide)

lemma timer_iff_step (s : DogSupervisor) (inp : CycleInput)
    (ih : s.unsupervised_start_time ≠ none ↔
      s.current_state = SupervisionState.unsupervised
      ∨ s.current_state = SupervisionState.alert) :
    (check_supervision s inp).unsupervised_start_time ≠ none ↔
      (check_supervision s inp).current_state = SupervisionState.unsupervised
      ∨ (check_supervision s inp).current_state = SupervisionState.alert := by
  rcases inp with ⟨now, frame⟩
  cases frame with
  | none => exact ih
  | some p =>
    rcases p with ⟨d, h⟩
    rw [check_supervision_some]
    split_ifs with h1 h2
    · rw [handle_state_change_timer, handle_state_change_current_state]
      have hna := determine_state_ne_alert (is_dog_unsupervised d h) d h
      split_ifs with h3
      · simp [h3]
      · simp [h3, hna]
    · rw [check_alert_condition_timer, check_alert_condition_current]
      split_ifs with h3
      · constructor
        · intro _; right; rfl
        · intro _
          unfold alert_fires at h3
          cases hst : s.unsupervised_start_time with
          | none => rw [hst] at h3; simp at h3
          | some start => simp [hst]
      · exact ih
    · exact ih

lemma timer_iff_reachable (delay : Nat) (s : DogSupervisor)
    (hs : Reachable delay s) :
    s.unsupervised_start_time ≠ none ↔
      s.current_state = SupervisionState.unsupervised
      ∨ s.current_state = SupervisionState.alert := by
  induction hs with
  | init => simp [DogSupervisor.init]
  | step s inp _ ih => exact timer_iff_step s inp ih

/-- C3: over all reachable supervisor states the unsupervised timer is
non-null exactly when the state is Unsupervised or Alert (a continuous
unsupervised span, Alert included); moreover a cycle entering
Unsupervised sets the timer to the current time, a cycle entering Idle or
Supervised clears it, and a cycle entering Alert preserves the timer
value unchanged. -/
theorem unsupervised_timer_invariant (delay : Nat) (s : DogSupervisor)
    (hs : Reachable delay s) :
    (s.unsupervised_start_time ≠ none ↔
      s.current_state = SupervisionState.unsupervised
      ∨ s.current_state = SupervisionState.alert)
    ∧ ∀ (now d h : Nat),
        (determine_state (is_dog_unsupervised d h) d h
            = SupervisionState.unsupervised →
          determine_state (is_dog_unsupervised d h) d h ≠ s.current_state →
          (check_supervision s ⟨now, some (d, h)⟩).unsupervised_start_time
            = some now)
        ∧ ((determine_state (is_dog_unsupervised d h) d h
              = SupervisionState.idle
            ∨ determine_state (is_dog_unsupervised d h) d h
              = SupervisionState.supervised) →
          determine_state (is_dog_unsupervised d h) d h ≠ s.current_state →
          (check_supervision s ⟨now, some (d, h)⟩).unsupervised_start_time
            = none)
        ∧ ((check_supervision s ⟨now, some (d, h)⟩).current_state
            = SupervisionState.alert →
          s.current_state ≠ SupervisionState.alert →
          (check_supervision s ⟨now, some (d, h)⟩).unsupervised_start_time
            = s.unsupervised_start_time) := by
  refine ⟨timer_iff_reachable delay s hs, ?_⟩
  intro now d h
  refine ⟨?_, ?_, ?_⟩
  · intro ht hne
    rw [check_supervision_some, if_pos hne, handle_state_change_timer,
      if_pos ht]
  · intro ht hne
    rw [check_supervision_some, if_pos hne, handle_state_change_timer,
      if_neg]
    rcases ht with ht | ht <;> simp [ht]
  · intro hpost hcur
    rw [check_supervision_some] at hpost ⊢
    split_ifs at hpost ⊢ with h1 h2
    · rw [handle_state_change_current_state] at hpost
      exact absurd hpost (determine_state_ne_alert (is_dog_unsupervised d h) d h)
    · exact check_alert_condition_timer s now d h
    · exact rfl

lemma foldl_appendEvent (evs : List SupervisionEvent) :
    ∀ (N : Nat) (h : List SupervisionEvent), h.length ≤ N →
      evs.foldl (appendEvent N) h
        = (h ++ evs).drop (h.length + evs.length - N) := by
  induction evs with
  | nil =>
    intro N h hle
    simp [Nat.sub_eq_zero_of_le hle]
  | cons e rest ih =>
    intro N h hle
    simp only [List.foldl_cons]
    rw [show appendEvent N h e
        = (let h2 := h ++ [e];
           if N < h2.length then h2.drop 1 else h2) from rfl]
    simp only
    split_ifs with hlt
    · have hlenN : h.length = N := by
        simp only [List.length_append, List.length_singleton] at hlt
        omega
      have hlen2 : ((h ++ [e]).drop 1).length ≤ N := by
        simp
        omega
      rw [ih N _ hlen2]
      have hidx : ((h ++ [e]).drop 1).length + rest.length - N
          = rest.length := by
        simp
        omega
      rw [hidx]
      have e1 : ((h ++ [e]).drop 1) ++ rest = ((h ++ [e]) ++ rest).drop 1 :=
        (List.drop_append_of_le_length (by simp)).symm
      rw [e1, List.drop_drop]
      have e2 : (h ++ [e]) ++ rest = h ++ e :: rest := by simp
      rw [e2]
      have e3 : h.length + (e :: rest).length - N = 1 + rest.length := by
        simp
        omega
      rw [e3]
    · have hlen2 : (h ++ [e]).length ≤ N := by
        simp only [List.length_append, List.length_singleton] at hlt ⊢
        omega
      rw [ih N _ hlen2]
      have e1 : (h ++ [e]) ++ rest = h ++ e :: rest := by simp
      have e2 : (h ++ [e]).length + rest.length - N
          = h.length + (e :: rest).length - N := by
        simp
        omega
      rw [e1, e2]

/-- C6: the event history is a bounded FIFO of capacity N: starting from
an empty history, after recording N + k events exactly the N most recent
remain, in their original relative order (the first k are evicted); and
the default capacity set by the constructor is 1000. -/
theorem history_bounded_fifo :
    (∀ (evs : List SupervisionEvent) (N k : Nat), evs.length = N + k →
      evs.foldl (appendEvent N) [] = evs.drop k
      ∧ (evs.foldl (appendEvent N) []).length = N)
    ∧ ∀ d : Nat, (DogSupervisor.init d).max_history_size = 1000 := by
  constructor
  · intro evs N k hlen
    have h0 : ([] : List SupervisionEvent).length ≤ N := by simp
    have := foldl_appendEvent evs N [] h0
    simp only [List.nil_append, List.length_nil, Nat.zero_add] at this
    rw [hlen] at this
    have hk : N + k - N = k := by omega
    rw [hk] at this
    refine ⟨this, ?_⟩
    rw [this, List.length_drop, hlen]
    omega
  · intro d
    rfl

/-- C6 witness: with capacity 2 and three recorded events, exactly the
two most recent remain, in order. -/
theorem history_bounded_fifo_witness :
    ([⟨SupervisionState.idle, 0, 0, 0, none⟩,
      ⟨SupervisionState.unsupervised, 1, 1, 0, none⟩,
      ⟨SupervisionState.alert, 2, 1, 0, some 1⟩] :
        List SupervisionEvent).foldl (appendEvent 2) []
      = [⟨SupervisionState.unsupervised, 1, 1, 0, none⟩,
         ⟨SupervisionState.alert, 2, 1, 0, some 1⟩] :=
  (history_bounded_fifo.1
    [⟨SupervisionState.idle, 0, 0, 0, none⟩,
     ⟨SupervisionState.unsupervised, 1, 1, 0, none⟩,
     ⟨SupervisionState.alert, 2, 1, 0, some 1⟩] 2 1 (by decide)).1

/-- C3 witness: the initial state satisfies the invariant, and the first
cycle with counts (1, 0) at time 0 sets the timer to 0. -/
theorem unsupervised_timer_invariant_witness :
    ((DogSupervisor.init 5).unsupervised_start_time ≠ none ↔
      (DogSupervisor.init 5).current_state = SupervisionState.unsupervised
      ∨ (DogSupervisor.init 5).current_state = SupervisionState.alert)
    ∧ (check_supervision (DogSupervisor.init 5)
        ⟨0, some (1, 0)⟩).unsupervised_start_time = some 0 :=
  ⟨(unsupervised_timer_invariant 5 (DogSupervisor.init 5) Reachable.init).1,
   ((unsupervised_timer_invariant 5 (DogSupervisor.init 5)
      Reachable.init).2 0 1 0).1 (by decide) (by decide)⟩

lemma trigger_event_handlers_eq_map
    (handlers : List (SupervisionEvent → Except String Unit))
    (e : SupervisionEvent) :
    trigger_event_handlers handlers e
      = handlers.map (fun g => run_handler g e) := by
  have key : ∀ (hs : List (SupervisionEvent → Except String Unit))
      (acc : List Bool),
      hs.foldl (fun acc g => acc ++ [run_handler g e]) acc
        = acc ++ hs.map (fun g => run_handler g e) := by
    intro hs
    induction hs with
    | nil => intro acc; simp
    | cons g rest ih => intro acc; simp [ih]
  simpa [trigger_event_handlers] using key handlers []

/-- C7: the broadcast loop invokes every registered observer with the
event, in registration order, as a total function (no observer exception
reaches the caller): the outcome list is the pointwise image of the
handler list, so a handler placed between two groups — even one that
always raises — changes nothing about the invocations before or after
it, and every handler is reached. -/
theorem observer_isolation
    (hs1 hs2 : List (SupervisionEvent → Except String Unit))
    (f : SupervisionEvent → Except String Unit) (e : SupervisionEvent) :
    trigger_event_handlers hs1 e = hs1.map (fun g => run_handler g e)
    ∧ trigger_event_handlers (hs1 ++ f :: hs2) e
      = trigger_event_handlers hs1 e
        ++ run_handler f e :: trigger_event_handlers hs2 e
    ∧ (trigger_event_handlers (hs1 ++ f :: hs2) e).length
      = hs1.length + 1 + hs2.length := by
  refine ⟨trigger_event_handlers_eq_map hs1 e, ?_, ?_⟩
  · simp [trigger_event_handlers_eq_map]
  · simp [trigger_event_handlers_eq_map]
    omega

/-- C10: one detection cycle records at most one event: the history after
the cycle is the fold of the cycle's recorded events over the old
history, there is at most one such event, and it is a state-change event
exactly when the target differs from the current state, an Alert event
only when target and current state are both Unsupervised, and no event
otherwise — never both kinds in one cycle. -/
theorem cycle_appends_at_most_one_event (s : DogSupervisor)
    (inp : CycleInput) :
    (check_supervision s inp).event_history
      = (cycle_events s inp).foldl (appendEvent s.max_history_size)
          s.event_history
    ∧ (cycle_events s inp).length ≤ 1
    ∧ ∀ (d h : Nat), inp.frame = some (d, h) →
        (determine_state (is_dog_unsupervised d h) d h ≠ s.current_state →
          ∃ ev, cycle_events s inp = [ev]
            ∧ ev.state = determine_state (is_dog_unsupervised d h) d h
            ∧ ev.state ≠ SupervisionState.alert)
        ∧ (determine_state (is_dog_unsupervised d h) d h = s.current_state →
            determine_state (is_dog_unsupervised d h) d h
              ≠ SupervisionState.unsupervised →
            cycle_events s inp = [])
        ∧ (determine_state (is_dog_unsupervised d h) d h = s.current_state →
            determine_state (is_dog_unsupervised d h) d h
              = SupervisionState.unsupervised →
            cycle_events s inp = []
            ∨ ∃ ev, cycle_events s inp = [ev]
                ∧ ev.state = SupervisionState.alert) := by
  refine ⟨check_supervision_history s inp, ?_, ?_⟩
  · rcases inp with ⟨now, frame⟩
    cases frame with
    | none => simp [cycle_events]
    | some p =>
      rcases p with ⟨d, h⟩
      simp only [cycle_events]
      split_ifs with h1 h2
      · simp
      · cases hst : s.unsupervised_start_time with
        | none => simp
        | some start =>
          simp only
          split_ifs with h3 <;> simp
      · simp
  · intro d h hf
    rcases inp with ⟨now, frame⟩
    simp only at hf
    subst hf
    refine ⟨?_, ?_, ?_⟩
    · intro hne
      refine ⟨⟨determine_state (is_dog_unsupervised d h) d h, now, d, h,
        none⟩, ?_, rfl, determine_state_ne_alert (is_dog_unsupervised d h) d h⟩
      simp only [cycle_events]
      rw [if_pos hne]
    · intro heq hnu
      simp only [cycle_events]
      rw [if_neg (not_not.mpr heq), if_neg hnu]
    · intro heq hu
      simp only [cycle_events]
      rw [if_neg (not_not.mpr heq), if_pos hu]
      cases hst : s.unsupervised_start_time with
      | none => left; rfl
      | some start =>
        simp only
        split_ifs with h3
        · right
          exact ⟨⟨SupervisionState.alert, now, d, h, some (now - start)⟩,
            rfl, rfl⟩
        · left; rfl

/-- C10 witness: from the initial Idle state a cycle with counts (1, 0)
records exactly one state-change event, to Unsupervised. -/
theorem cycle_appends_at_most_one_event_witness :
    ∃ ev, cycle_events (DogSupervisor.init 5) ⟨0, some (1, 0)⟩ = [ev]
      ∧ ev.state = determine_state (is_dog_unsupervised 1 0) 1 0
      ∧ ev.state ≠ SupervisionState.alert :=
  (((cycle_appends_at_most_one_event (DogSupervisor.init 5)
      ⟨0, some (1, 0)⟩).2.2 1 0 rfl).1 (by decide))

lemma lookupTime_setTime_eq (k : String) (t : Nat) (l : List (String × Nat)) :
    lookupTime k (setTime k t l) = some t := by
  induction l with
  | nil => simp [setTime, lookupTime]
  | cons p rest ih =>
    rcases p with ⟨k2, v⟩
    by_cases hk : k2 = k
    · subst hk
      simp [setTime, lookupTime]
    · simp [setTime, lookupTime, hk, ih]

lemma lookupTime_setTime_ne (k n : String) (t : Nat)
    (l : List (String × Nat)) (h : k ≠ n) :
    lookupTime n (setTime k t l) = lookupTime n l := by
  induction l with
  | nil => simp [setTime, lookupTime, h]
  | cons p rest ih =>
    rcases p with ⟨k2, v⟩
    by_cases hk : k2 = k
    · subst hk
      simp [setTime, lookupTime, h]
    · simp only [setTime, if_neg hk]
      by_cases hn : k2 = n
      · simp [lookupTime, hn]
      · simp [lookupTime, hn, ih]

lemma attempt_action_attempted (now : Nat) (results : String → ActionResult)
    (st : TriggerState) (a : ActionTrigger) :
    (attempt_action now results st a).attempted = st.attempted ++ [a.name] := by
  unfold attempt_action
  cases results a.name <;> rfl

lemma attempt_action_actions (now : Nat) (results : String → ActionResult)
    (st : TriggerState) (a : ActionTrigger) :
    (attempt_action now results st a).actions
      = st.actions ++ [{ a with last_triggered := some now }] := by
  unfold attempt_action
  cases results a.name <;> rfl

lemma attempt_action_ltt_self (now : Nat) (results : String → ActionResult)
    (st : TriggerState) (a : ActionTrigger) :
    lookupTime a.name (attempt_action now results st a).last_trigger_time
      = (if results a.name = ActionResult.success then some now
         else lookupTime a.name st.last_trigger_time) := by
  unfold attempt_action
  cases results a.name <;> simp [lookupTime_setTime_eq]

lemma attempt_action_ltt_other (now : Nat) (results : String → ActionResult)
    (st : TriggerState) (a : ActionTrigger) (n : String) (h : a.name ≠ n) :
    lookupTime n (attempt_action now results st a).last_trigger_time
      = lookupTime n st.last_trigger_time := by
  unfold attempt_action
  cases results a.name <;> simp [lookupTime_setTime_ne a.name n now _ h]

lemma process_action_skip_disabled (c now : Nat)
    (results : String → ActionResult) (st : TriggerState) (a : ActionTrigger)
    (h : a.enabled = false) :
    process_action c now results st a
      = { st with actions := st.actions ++ [a] } := by
  unfold process_action
  rw [if_pos h]

lemma process_action_skip_cooldown (c now : Nat)
    (results : String → ActionResult) (st : TriggerState) (a : ActionTrigger)
    (h1 : a.enabled = true)
    (h2 : on_cooldown c now st.last_trigger_time a.name = true) :
    process_action c now results st a
      = { st with actions := st.actions ++ [a] } := by
  unfold process_action
  rw [if_neg (by simp [h1]), if_pos h2]

lemma process_action_attempt (c now : Nat)
    (results : String → ActionResult) (st : TriggerState) (a : ActionTrigger)
    (h1 : a.enabled = true)
    (h2 : on_cooldown c now st.last_trigger_time a.name = false) :
    process_action c now results st a = attempt_action now results st a := by
  unfold process_action
  rw [if_neg (by simp [h1]), if_neg (by simp [h2])]

lemma process_action_ltt_other (c now : Nat)
    (results : String → ActionResult) (st : TriggerState) (a : ActionTrigger)
    (n : String) (h : a.name ≠ n) :
    lookupTime n (process_action c now results st a).last_trigger_time
      = lookupTime n st.last_trigger_time := by
  unfold process_action
  split_ifs with h1 h2
  · rfl
  · rfl
  · exact attempt_action_ltt_other now results st a n h

lemma process_action_attempted_characterization (c now : Nat)
    (results : String → ActionResult) (st : TriggerState) (a : ActionTrigger) :
    (process_action c now results st a).attempted = st.attempted
    ∨ (process_action c now results st a).attempted
        = st.attempted ++ [a.name] := by
  unfold process_action
  split_ifs with h1 h2
  · left; rfl
  · left; rfl
  · right; exact attempt_action_attempted now results st a

lemma foldl_process_ltt_other (c now : Nat)
    (results : String → ActionResult) (as : List ActionTrigger)
    (st : TriggerState) (n : String) (h : ∀ a ∈ as, a.name ≠ n) :
    lookupTime n
        (as.foldl (process_action c now results) st).last_trigger_time
      = lookupTime n st.last_trigger_time := by
  induction as generalizing st with
  | nil => rfl
  | cons a rest ih =>
    simp only [List.foldl_cons]
    rw [ih _ (fun b hb => h b (List.mem_cons_of_mem a hb)),
      process_action_ltt_other c now results st a n (h a (List.mem_cons_self a rest))]

lemma foldl_process_attempted_mono (c now : Nat)
    (results : String → ActionResult) (as : List ActionTrigger)
    (st : TriggerState) (n : String) (h : n ∈ st.attempted) :
    n ∈ (as.foldl (process_action c now results) st).attempted := by
  induction as generalizing st with
  | nil => exact h
  | cons a rest ih =>
    simp only [List.foldl_cons]
    refine ih _ ?_
    rcases process_action_attempted_characterization c now results st a with
      hc | hc <;> rw [hc] <;> simp [h]

lemma foldl_process_attempted_sub (c now : Nat)
    (results : String → ActionResult) (as : List ActionTrigger)
    (st : TriggerState) (n : String)
    (h : n ∈ (as.foldl (process_action c now results) st).attempted) :
    n ∈ st.attempted ∨ n ∈ as.map ActionTrigger.name := by
  induction as generalizing st with
  | nil => exact Or.inl h
  | cons a rest ih =>
    simp only [List.foldl_cons] at h
    rcases ih _ h with h2 | h2
    · rcases process_action_attempted_characterization c now results st a with
        hc | hc
      · rw [hc] at h2; exact Or.inl h2
      · rw [hc] at h2
        rcases List.mem_append.mp h2 with h3 | h3
        · exact Or.inl h3
        · simp at h3
          right
          simp [h3]
    · right
      simp [h2]

lemma foldl_process_actions_append (c now : Nat)
    (results : String → ActionResult) (as : List ActionTrigger)
    (st : TriggerState) :
    ∃ rest, (as.foldl (process_action c now results) st).actions
      = st.actions ++ rest := by
  induction as generalizing st with
  | nil => exact ⟨[], by simp⟩
  | cons a rest ih =>
    simp only [List.foldl_cons]
    have step : ∃ one, (process_action c now results st a).actions
        = st.actions ++ one := by
      unfold process_action
      split_ifs with h1 h2
      · exact ⟨[a], rfl⟩
      · exact ⟨[a], rfl⟩
      · exact ⟨[{ a with last_triggered := some now }],
          attempt_action_actions now results st a⟩
    rcases step with ⟨one, hone⟩
    rcases ih (process_action c now results st a) with ⟨more, hmore⟩
    exact ⟨one ++ more, by rw [hmore, hone, List.append_assoc]⟩

lemma on_cooldown_congr (c now : Nat) (l1 l2 : List (String × Nat))
    (n : String) (h : lookupTime n l1 = lookupTime n l2) :
    on_cooldown c now l1 n = on_cooldown c now l2 n := by
  unfold on_cooldown
  rw [h]

lemma trigger_actions_per_action (m : ActionManager) (now : Nat)
    (results : String → ActionResult) (a : ActionTrigger)
    (hnod : (m.actions.map ActionTrigger.name).Nodup)
    (hmem : a ∈ m.actions) (hen : a.enabled = true) :
    (a.name ∈ (trigger_actions m now results).attempted
      ↔ on_cooldown m.cooldown_seconds now m.last_trigger_time a.name = false)
    ∧ lookupTime a.name (trigger_actions m now results).last_trigger_time
      = (if on_cooldown m.cooldown_seconds now m.last_trigger_time a.name
              = false
            ∧ results a.name = ActionResult.success
         then some now
         else lookupTime a.name m.last_trigger_time)
    ∧ (on_cooldown m.cooldown_seconds now m.last_trigger_time a.name
          = false →
        ∃ a2 ∈ (trigger_actions m now results).actions,
          a2.name = a.name ∧ a2.enabled = a.enabled
          ∧ a2.last_triggered = some now) := by
  rcases List.append_of_mem hmem with ⟨as1, as2, hsplit⟩
  rw [hsplit, List.map_append, List.map_cons] at hnod
  rw [List.nodup_append] at hnod
  have hnotas1 : a.name ∉ as1.map ActionTrigger.name := by
    intro hc
    exact (hnod.2.2 hc) (List.mem_cons_self _ _)
  have hnotas2 : a.name ∉ as2.map ActionTrigger.name :=
    (List.nodup_cons.mp hnod.2.1).1
  have hne1 : ∀ b ∈ as1, b.name ≠ a.name := by
    intro b hb hc
    exact hnotas1 (hc ▸ List.mem_map_of_mem ActionTrigger.name hb)
  have hne2 : ∀ b ∈ as2, b.name ≠ a.name := by
    intro b hb hc
    exact hnotas2 (hc ▸ List.mem_map_of_mem ActionTrigger.name hb)
  have hunfold : trigger_actions m now results
      = as2.foldl (process_action m.cooldown_seconds now results)
          (process_action m.cooldown_seconds now results
            (as1.foldl (process_action m.cooldown_seconds now results)
              { actions := []
                last_trigger_time := m.last_trigger_time
                attempted := []
                triggered_count := 0 }) a) := by
    unfold trigger_actions
    rw [hsplit, List.foldl_append, List.foldl_cons]
  set st0 : TriggerState :=
    { actions := []
      last_trigger_time := m.last_trigger_time
      attempted := []
      triggered_count := 0 } with hst0
  set stA := as1.foldl (process_action m.cooldown_seconds now results) st0
    with hstA
  have hlttA : lookupTime a.name stA.last_trigger_time
      = lookupTime a.name m.last_trigger_time :=
    foldl_process_ltt_other m.cooldown_seconds now results as1 st0 a.name hne1
  have hnotattA : a.name ∉ stA.attempted := by
    intro hc
    rcases foldl_process_attempted_sub m.cooldown_seconds now results as1 st0
        a.name hc with h | h
    · simp [hst0] at h
    · rcases List.mem_map.mp h with ⟨b, hb, hbn⟩
      exact hne1 b hb hbn
  have hocA : on_cooldown m.cooldown_seconds now stA.last_trigger_time a.name
      = on_cooldown m.cooldown_seconds now m.last_trigger_time a.name :=
    on_cooldown_congr _ _ _ _ _ hlttA
  set stB := process_action m.cooldown_seconds now results stA a with hstB
  by_cases hoc : on_cooldown m.cooldown_seconds now m.last_trigger_time a.name
      = false
  · have hatt : stB = attempt_action now results stA a :=
      process_action_attempt m.cooldown_seconds now results stA a hen
        (hocA.trans hoc)
    refine ⟨?_, ?_, ?_⟩
    · rw [hunfold]
      constructor
      · intro _; exact hoc
      · intro _
        apply foldl_process_attempted_mono
        rw [hatt, attempt_action_attempted]
        simp
    · rw [hunfold]
      rw [foldl_process_ltt_other m.cooldown_seconds now results as2 stB
        a.name hne2]
      rw [hatt, attempt_action_ltt_self, hlttA]
      simp [hoc]
    · intro _
      rw [hunfold]
      rcases foldl_process_actions_append m.cooldown_seconds now results as2
          stB with ⟨rest, hrest⟩
      rw [hrest]
      refine ⟨{ a with last_triggered := some now }, ?_, rfl, rfl, rfl⟩
      rw [hatt, attempt_action_actions]
      simp
  · have hoc2 : on_cooldown m.cooldown_seconds now stA.last_trigger_time
        a.name = true := by
      rw [hocA]
      revert hoc
      cases on_cooldown m.cooldown_seconds now m.last_trigger_time a.name <;>
        simp
    have hskip : stB = { stA with actions := stA.actions ++ [a] } :=
      process_action_skip_cooldown m.cooldown_seconds now results stA a hen
        hoc2
    refine ⟨?_, ?_, ?_⟩
    · rw [hunfold]
      constructor
      · intro hc
        exfalso
        rcases foldl_process_attempted_sub m.cooldown_seconds now results as2
            stB a.name hc with h | h
        · rw [hskip] at h
          exact hnotattA h
        · rcases List.mem_map.mp h with ⟨b, hb, hbn⟩
          exact hne2 b hb hbn
      · intro hc; exact absurd hc hoc
    · rw [hunfold]
      rw [foldl_process_ltt_other m.cooldown_seconds now results as2 stB
        a.name hne2]
      rw [hskip]
      have : ¬ (on_cooldown m.cooldown_seconds now m.last_trigger_time a.name
          = false ∧ results a.name = ActionResult.success) := by
        intro hc; exact hoc hc.1
      rw [if_neg this]
      exact hlttA
    · intro hc; exact absurd hc hoc

/-- C4: per-action cooldown in `trigger_actions`.  For an enabled
registered action whose last successful trigger was recorded at time t:
when `now - t < cooldown_seconds` the trigger attempt is skipped and the
recorded time is untouched; when `now - t ≥ cooldown_seconds` the action
executes; when execution does not succeed (returns false or raises) the
cooldown timestamp is left unchanged; and an action with no recorded
success yet is always attempted — all regardless of the other actions'
results, since each action is processed in turn. -/
theorem cooldown_policy (m : ActionManager) (now : Nat)
    (results : String → ActionResult) (a : ActionTrigger)
    (hnod : (m.actions.map ActionTrigger.name).Nodup)
    (hmem : a ∈ m.actions) (hen : a.enabled = true) :
    (∀ t, lookupTime a.name m.last_trigger_time = some t →
        now - t < m.cooldown_seconds →
        a.name ∉ (trigger_actions m now results).attempted
        ∧ lookupTime a.name
            (trigger_actions m now results).last_trigger_time = some t)
    ∧ (∀ t, lookupTime a.name m.last_trigger_time = some t →
        m.cooldown_seconds ≤ now - t →
        a.name ∈ (trigger_actions m now results).attempted)
    ∧ (results a.name ≠ ActionResult.success →
        lookupTime a.name (trigger_actions m now results).last_trigger_time
          = lookupTime a.name m.last_trigger_time)
    ∧ (lookupTime a.name m.last_trigger_time = none →
        a.name ∈ (trigger_actions m now results).attempted) := by
  obtain ⟨hiff, hltt, _⟩ :=
    trigger_actions_per_action m now results a hnod hmem hen
  refine ⟨?_, ?_, ?_, ?_⟩
  · intro t ht hlt
    have hoc : on_cooldown m.cooldown_seconds now m.last_trigger_time a.name
        = true := by
      unfold on_cooldown
      rw [ht]
      simp [hlt]
    constructor
    · intro hc
      have := hiff.mp hc
      rw [hoc] at this
      cases this
    · rw [hltt, if_neg (by rw [hoc]; simp), ht]
  · intro t ht hge
    apply hiff.mpr
    unfold on_cooldown
    rw [ht]
    simp
    omega
  · intro hres
    rw [hltt, if_neg ?_]
    intro hc
    exact hres hc.2
  · intro hnone
    apply hiff.mpr
    unfold on_cooldown
    rw [hnone]

/-- C4 witness: a single enabled action last successfully triggered at
time 0, with cooldown 60, is attempted again at time 100. -/
theorem cooldown_policy_witness :
    "sound_alert" ∈ (trigger_actions
      { actions := [⟨"sound_alert", true, some 0⟩]
        cooldown_seconds := 60
        last_trigger_time := [("sound_alert", 0)] } 100
      (fun _ => ActionResult.success)).attempted :=
  ((cooldown_policy
    { actions := [⟨"sound_alert", true, some 0⟩]
      cooldown_seconds := 60
      last_trigger_time := [("sound_alert", 0)] } 100
    (fun _ => ActionResult.success)
    ⟨"sound_alert", true, some 0⟩
    (by simp) (by simp) rfl).2.1 0 rfl (by decide))

lemma attempted_only_enabled (c now : Nat)
    (results : String → ActionResult) (as : List ActionTrigger)
    (st : TriggerState) (n : String)
    (h : n ∈ (as.foldl (process_action c now results) st).attempted) :
    n ∈ st.attempted ∨ ∃ b ∈ as, b.name = n ∧ b.enabled = true := by
  induction as generalizing st with
  | nil => exact Or.inl h
  | cons a rest ih =>
    simp only [List.foldl_cons] at h
    rcases ih _ h with h2 | h2
    · by_cases he : a.enabled = false
      · rw [process_action_skip_disabled c now results st a he] at h2
        exact Or.inl h2
      · have he2 : a.enabled = true := by
          revert he; cases a.enabled <;> simp
        by_cases hoc : on_cooldown c now st.last_trigger_time a.name = true
        · rw [process_action_skip_cooldown c now results st a he2 hoc] at h2
          exact Or.inl h2
        · have hoc2 : on_cooldown c now st.last_trigger_time a.name
              = false := by
            revert hoc
            cases on_cooldown c now st.last_trigger_time a.name <;> simp
          rw [process_action_attempt c now results st a he2 hoc2,
            attempt_action_attempted] at h2
          rcases List.mem_append.mp h2 with h3 | h3
          · exact Or.inl h3
          · simp at h3
            exact Or.inr ⟨a, List.mem_cons_self a rest, h3.symm, he2⟩
    · rcases h2 with ⟨b, hb, hbn, hbe⟩
      exact Or.inr ⟨b, List.mem_cons_of_mem a hb, hbn, hbe⟩

lemma foldl_process_ltt_all_disabled (c now : Nat)
    (results : String → ActionResult) (as : List ActionTrigger)
    (st : TriggerState) (n : String)
    (h : ∀ b ∈ as, b.name = n → b.enabled = false) :
    lookupTime n
        (as.foldl (process_action c now results) st).last_trigger_time
      = lookupTime n st.last_trigger_time := by
  induction as generalizing st with
  | nil => rfl
  | cons a rest ih =>
    simp only [List.foldl_cons]
    rw [ih _ (fun b hb => h b (List.mem_cons_of_mem a hb))]
    by_cases hn : a.name = n
    · rw [process_action_skip_disabled c now results st a
        (h a (List.mem_cons_self a rest) hn)]
    · exact process_action_ltt_other c now results st a n hn

/-- C5 counterexample: a single enabled action, never previously
triggered, whose execution fails: after one `trigger_actions` call no
action succeeded (`triggered_count = 0`) and the manager's cooldown map
is still empty, yet `get_status` reports the action's own
`last_triggered` timestamp as the attempt time 5, not null — refuting
that the last-triggered timestamp stays null until the first successful
trigger. -/
theorem last_triggered_set_by_failed_attempt :
    (trigger_actions
      { actions := [⟨"sound_alert", true, none⟩]
        cooldown_seconds := 60
        last_trigger_time := [] } 5
      (fun _ => ActionResult.failure)).triggered_count = 0
    ∧ (trigger_actions
      { actions := [⟨"sound_alert", true, none⟩]
        cooldown_seconds := 60
        last_trigger_time := [] } 5
      (fun _ => ActionResult.failure)).last_trigger_time = []
    ∧ get_status (trigger_actions
      { actions := [⟨"sound_alert", true, none⟩]
        cooldown_seconds := 60
        last_trigger_time := [] } 5
      (fun _ => ActionResult.failure)).actions
      = [("sound_alert", true, some 5)] :=
  ⟨rfl, rfl, rfl⟩

/-- C5 amended: the manager's per-action cooldown timestamp
(`last_trigger_time`) is updated only by a successful trigger — a failed
attempt leaves it unchanged, an action with no recorded success is never
on cooldown, and a disabled action is neither attempted nor does it
change its cooldown entry — but the action object's own `last_triggered`
field, the one reported by `get_status`, is stamped with the attempt
time on every attempted trigger, even one whose execution fails. -/
theorem last_triggered_and_cooldown_semantics (m : ActionManager)
    (now : Nat) (results : String → ActionResult) (a : ActionTrigger)
    (hnod : (m.actions.map ActionTrigger.name).Nodup)
    (hmem : a ∈ m.actions) :
    (a.enabled = true → results a.name ≠ ActionResult.success →
      lookupTime a.name (trigger_actions m now results).last_trigger_time
        = lookupTime a.name m.last_trigger_time)
    ∧ (lookupTime a.name m.last_trigger_time = none →
        on_cooldown m.cooldown_seconds now m.last_trigger_time a.name
          = false)
    ∧ (a.enabled = true →
        on_cooldown m.cooldown_seconds now m.last_trigger_time a.name
            = false →
        ∃ a2 ∈ (trigger_actions m now results).actions,
          a2.name = a.name ∧ a2.last_triggered = some now)
    ∧ (a.enabled = false →
        a.name ∉ (trigger_actions m now results).attempted
        ∧ lookupTime a.name
            (trigger_actions m now results).last_trigger_time
          = lookupTime a.name m.last_trigger_time) := by
  refine ⟨?_, ?_, ?_, ?_⟩
  · intro hen hres
    obtain ⟨_, hltt, _⟩ :=
      trigger_actions_per_action m now results a hnod hmem hen
    rw [hltt, if_neg ?_]
    intro hc
    exact hres hc.2
  · intro hnone
    unfold on_cooldown
    rw [hnone]
  · intro hen hoc
    obtain ⟨_, _, hact⟩ :=
      trigger_actions_per_action m now results a hnod hmem hen
    rcases hact hoc with ⟨a2, ha2, hn, _, hl⟩
    exact ⟨a2, ha2, hn, hl⟩
  · intro hdis
    have hinj := List.inj_on_of_nodup_map hnod
    constructor
    · intro hc
      rcases attempted_only_enabled m.cooldown_seconds now results m.actions
          _ a.name hc with h | h
      · simp at h
      · rcases h with ⟨b, hb, hbn, hbe⟩
        have : b = a := hinj hb hmem hbn
        rw [this] at hbe
        rw [hdis] at hbe
        cases hbe
    · apply foldl_process_ltt_all_disabled
      intro b hb hbn
      have : b = a := hinj hb hmem hbn
      rw [this, hdis]

/-- C5 amended witness: for the failing single-action manager of the
counterexample, the cooldown entry stays untouched after the failed
attempt, and the processed action carries `last_triggered = some 5`. -/
theorem last_triggered_and_cooldown_semantics_witness :
    lookupTime "sound_alert" (trigger_actions
      { actions := [⟨"sound_alert", true, none⟩]
        cooldown_seconds := 60
        last_trigger_time := [] } 5
      (fun _ => ActionResult.failure)).last_trigger_time
      = lookupTime "sound_alert"
        ({ actions := [⟨"sound_alert", true, none⟩]
           cooldown_seconds := 60
           last_trigger_time := [] } : ActionManager).last_trigger_time :=
  ((last_triggered_and_cooldown_semantics
    { actions := [⟨"sound_alert", true, none⟩]
      cooldown_seconds := 60
      last_trigger_time := [] } 5
    (fun _ => ActionResult.failure)
    ⟨"sound_alert", true, none⟩ (by simp) (by simp)).1 rfl (by simp))

end DoodieDuty
